/-
  Verification of the lanx-automations scrape-parse-join pipeline.

  The Python sources (crawlercm/services/scrape_reports.py,
  crawlercm/services/scrape_pending_orders.py, crawlercm/api/routes/report_router.py,
  crawlercm/core/utils/format_excel.py) are shallowly embedded below:
  Python `str` is `List Char`, Python `float` values produced by the numeric
  parsers are modelled as exact rationals `ℚ` (every value the parsers build is
  a finite decimal, and the properties at issue distinguish values that are far
  apart, so rounding plays no role), fallible code returns `Except PyErr`.
-/
import Mathlib

/-- Python `str` is modelled as a list of characters. -/
abbrev PyStr := List Char

/-- The characters stripped by Python's `str.strip()`. -/
def pyIsSpace (c : Char) : Bool :=
  c = ' ' || c = '\t' || c = '\n' || c = '\r' || c = '\x0b' || c = '\x0c'

/-- Model of Python `str.strip()`: drop leading and trailing whitespace. -/
def pyStrip (s : PyStr) : PyStr :=
  ((s.dropWhile pyIsSpace).reverse.dropWhile pyIsSpace).reverse

/-- Model of Python `str.replace(c, "")`: delete every occurrence of `c`. -/
def removeChar (c : Char) (s : PyStr) : PyStr :=
  s.filter (fun x => x ≠ c)

/-- Model of Python `str.replace(a, b)` for one-character patterns. -/
def replaceChar (a b : Char) (s : PyStr) : PyStr :=
  s.map (fun x => if x = a then b else x)

/-- Model of Python `str.split(sep)` for a one-character separator:
    every occurrence splits, empty pieces are kept, the result is nonempty. -/
def pySplit (sep : Char) : PyStr → List PyStr
  | [] => [[]]
  | c :: rest =>
      if c = sep then [] :: pySplit sep rest
      else
        match pySplit sep rest with
        | [] => [[c]]
        | p :: ps => (c :: p) :: ps

/-- Model of Python `str.rfind(c)`: index of the last occurrence, `-1` if absent. -/
def pyRfind (ch : Char) : PyStr → Int
  | [] => -1
  | c :: rest =>
      let r := pyRfind ch rest
      if r ≠ -1 then r + 1 else if c = ch then 0 else -1

/-- Numeric value of a digit string (most significant digit first). -/
def digitsVal (s : PyStr) : ℕ :=
  s.foldl (fun n c => 10 * n + (c.toNat - '0'.toNat)) 0

/-- The finite-decimal fragment of Python `float(s)` without a sign:
    `digits`, `digits.digits`, `digits.` or `.digits`.  Python's `float` also
    accepts the special tokens `nan`/`inf`/`infinity` (any ASCII case) — those
    are modelled by `pyFloatSpecial`/`pyFloatPy` below, which extend this
    fragment; exponent and underscore forms remain out of scope (no claim
    quantifies over inputs containing `e` or `_`). -/
def pyFloatUnsigned (s : PyStr) : Option ℚ :=
  match pySplit '.' s with
  | [intPart] =>
      if intPart ≠ [] ∧ intPart.all Char.isDigit then some (digitsVal intPart) else none
  | [intPart, fracPart] =>
      if (intPart ≠ [] ∨ fracPart ≠ []) ∧ intPart.all Char.isDigit ∧ fracPart.all Char.isDigit
      then some ((digitsVal intPart : ℚ) + (digitsVal fracPart : ℚ) / 10 ^ fracPart.length)
      else none
  | _ => none

/-- Model of Python `float(s)` with an optional leading sign. -/
def pyFloat (s : PyStr) : Option ℚ :=
  match s with
  | [] => pyFloatUnsigned []
  | c :: rest =>
      if c = '-' then (pyFloatUnsigned rest).map (fun q => -q)
      else if c = '+' then pyFloatUnsigned rest
      else pyFloatUnsigned (c :: rest)

/-- Model of Python `int(f)` on a float: truncation toward zero. -/
def pyTrunc (q : ℚ) : ℤ :=
  if 0 ≤ q then ⌊q⌋ else -⌊-q⌋

example : pySplit '.' "1.234.56".data = ["1".data, "234".data, "56".data] := by decide
example : pyStrip "  ab ".data = "ab".data := by decide
example : pyFloat "1.23456".data = some ((123456 : ℚ) / 100000) := by
  simp [pyFloat, pyFloatUnsigned, pySplit, digitsVal]; norm_num
example : pyFloat "-1.5".data = some (-((3 : ℚ) / 2)) := by
  simp [pyFloat, pyFloatUnsigned, pySplit, digitsVal]; norm_num
example : pyRfind ',' "1,234.56".data = 1 := by decide
example : pyRfind 'x' "abc".data = -1 := by decide
example : pyTrunc (-(3 : ℚ) / 2) = -1 := by norm_num [pyTrunc]

/-- A Python `datetime.date` value. -/
structure PyDate where
  year : ℕ
  month : ℕ
  day : ℕ
deriving DecidableEq, Repr

/-- Days in a month of the proleptic Gregorian calendar (as Python's
    `datetime` uses). -/
def pyDaysInMonth (year month : ℕ) : ℕ :=
  if month = 2 then
    if year % 4 = 0 ∧ (year % 100 ≠ 0 ∨ year % 400 = 0) then 29 else 28
  else if month = 4 ∨ month = 6 ∨ month = 9 ∨ month = 11 then 30
  else 31

/-- Model of `datetime.strptime(s, "%d/%m/%y").date()` as used by the
    services: day and month take 1-2 digits, the 2-digit year is pivoted the
    way `%y` pivots (00-68 → 2000s, 69-99 → 1900s), the whole string must
    match, and the result must be a real calendar date; any mismatch is a
    `ValueError`, modelled as `none`. -/
def strptime_ddmmyy (s : PyStr) : Option PyDate :=
  match pySplit '/' s with
  | [d, m, y] =>
      if d ≠ [] ∧ d.length ≤ 2 ∧ d.all Char.isDigit ∧
         m ≠ [] ∧ m.length ≤ 2 ∧ m.all Char.isDigit ∧
         y ≠ [] ∧ y.length ≤ 2 ∧ y.all Char.isDigit then
        let dv := digitsVal d
        let mv := digitsVal m
        let yv := digitsVal y
        let year := if yv ≤ 68 then 2000 + yv else 1900 + yv
        if 1 ≤ mv ∧ mv ≤ 12 ∧ 1 ≤ dv ∧ dv ≤ pyDaysInMonth year mv
        then some ⟨year, mv, dv⟩ else none
      else none
  | _ => none

/-- Exceptions the embedded code can raise. -/
inductive PyErr where
  | indexError
  | validationError
  | attributeError
  | clientError
  | unboundLocalError
  | valueError
  | overflowError
  | httpException (status : ℕ)
deriving DecidableEq, Repr

/-- Model of Pydantic's coercion of a string into a `date` field
    (`datetime.date.fromisoformat`-style `YYYY-MM-DD`); any other string
    raises a `ValidationError`. -/
def pydantic_validate_date (s : PyStr) : Except PyErr PyDate :=
  match pySplit '-' s with
  | [y, m, d] =>
      if y.length = 4 ∧ y.all Char.isDigit ∧ m.length = 2 ∧ m.all Char.isDigit ∧
         d.length = 2 ∧ d.all Char.isDigit then
        let yv := digitsVal y
        let mv := digitsVal m
        let dv := digitsVal d
        if 1 ≤ mv ∧ mv ≤ 12 ∧ 1 ≤ dv ∧ dv ≤ pyDaysInMonth yv mv
        then .ok ⟨yv, mv, dv⟩ else .error .validationError
      else .error .validationError
  | _ => .error .validationError

/-- Model of the idiom `tds[i].text.strip() or None` fed into an
    `Optional[date]` Pydantic field: an empty string becomes `None`, any other
    string goes through Pydantic's date coercion. -/
def pydantic_opt_date (s : PyStr) : Except PyErr (Option PyDate) :=
  if s = [] then .ok none
  else (pydantic_validate_date s).map some

/-- `schemas/reports_schemas.py` `SalesReportItem`.  `str` fields are `PyStr`,
    `int` fields `ℤ`, `float` fields the exact rationals the parsers build. -/
structure SalesReportItem where
  cliente : PyStr
  negociacao : PyStr
  tipo_servico : PyStr
  emissao_pv : Option PyDate
  pedido_cliente : PyStr
  op : PyStr
  numero_projeto : PyStr
  codigo : PyStr
  produto : PyStr
  previsao : Option PyDate
  qtde_pendente : ℤ
  estoque : ℤ
  valor_unitario : ℚ
  ipi : Option ℚ
  valor_total : ℚ
  custo_estrutura : ℚ
  lucratividade_rs : ℚ
  lucratividade_percentual : ℚ
  condicao_pagamento : PyStr
deriving DecidableEq, Repr

/-- `schemas/reports_schemas.py` `PendingOrdersItem`. -/
structure PendingOrdersItem where
  op : PyStr
  cliente : PyStr
  codigo : PyStr
  produto : PyStr
  criacao : Option PyDate
  prazo : Option PyDate
  quantidade : ℤ
  peso : ℚ
  etapa : PyStr
deriving DecidableEq, Repr

/-- `schemas/reports_schemas.py` `PendingMaterialsItem`. -/
structure PendingMaterialsItem where
  criacao : Option PyDate
  servico : PyStr
  codigo : PyStr
  material : PyStr
  op : PyStr
  produto : PyStr
  sub_produto : PyStr
  previsao_op : Option PyDate
  quantidade : ℚ
  pendente : ℚ
  unidade : PyStr
  situacao : PyStr
  previsao_mp : Option PyDate
deriving DecidableEq, Repr

/-- Modelled from the spec: the `FilteredSalesReportItem` Pydantic model is
    imported from `schemas.reports_schemas` everywhere but its class
    declaration is absent from the source files (the schemas module declares
    only the three models above).  Fields follow spec §3 "ConsolidatedRecord"
    and the keyword arguments of the constructor call in `combine_data`. -/
structure FilteredSalesReportItem where
  negociacao : PyStr
  pedido_cliente : PyStr
  op : PyStr
  tipo_servico : PyStr
  numero_projeto : PyStr
  codigo : PyStr
  produto : PyStr
  previsao : Option PyDate
  qtde_pendente : ℤ
  valor_unitario : ℚ
  ipi : Option ℚ
  valor_total : ℚ
  etapa : PyStr
  materiais_pendentes : List PendingMaterialsItem
deriving DecidableEq, Repr

/-- A table cell's text (`td.text`, unstripped). -/
abbrev Cell := PyStr

/-- A table row: the texts of its `td` cells in document order.  `tr.text` is
    modelled as the concatenation of the cell texts (whitespace-only text
    nodes between tags do not change the blank-row test below, which strips). -/
abbrev Tr := List Cell

/-- Model of Python list indexing `tds[i]`: `IndexError` when out of range. -/
def pyIndex (tds : List Cell) (i : ℕ) : Except PyErr Cell :=
  match tds[i]? with
  | some c => .ok c
  | none => .error .indexError

namespace ScrapeReports

/-- `services/scrape_reports.py` `_parse_float` (lines 28-59).  The
    `isinstance` guard cannot fire here (`value` is always a `str`), so the
    embedding starts at `value.strip()`.  `float(...)` failure is absorbed
    into the `0.0` default of the final `try/except`.  This ℚ-valued
    embedding lives in `float`'s finite-decimal fragment; the companion
    `_parse_float_py` below models the same source lines with `float`'s
    `nan`/`inf` tokens resolved, and the two agree on cells made of digits,
    separators and whitespace (`parse_float_py_finite_of_class`). -/
def _parse_float (value : PyStr) : ℚ :=
  let cleaned_value := pyStrip value
  if cleaned_value = [] then 0
  else if ',' ∈ cleaned_value then
    -- cleaned_value.replace(".", "").replace(",", ".")
    (pyFloat (replaceChar ',' '.' (removeChar '.' cleaned_value))).getD 0
  else if '.' ∈ cleaned_value then
    let parts := pySplit '.' cleaned_value
    let cleaned_value :=
      if (parts.getLastD []).length = 3 ∧ 1 < parts.length
      then parts.flatten                                      -- "".join(parts)
      else parts.dropLast.flatten ++ '.' :: parts.getLastD [] -- "".join(parts[:-1]) + "." + parts[-1]
    (pyFloat cleaned_value).getD 0
  else (pyFloat cleaned_value).getD 0

/-- `services/scrape_reports.py` `_parse_int` (lines 62-73):
    `int(_parse_float(value))`, on the finite fragment where `int()` returns.
    In the source the `int(float_value)` call has no enclosing `try`, so on a
    non-finite float it raises (`ValueError` on nan, `OverflowError` on inf);
    that path is modelled faithfully by `_parse_int_py` below. -/
def _parse_int (value : PyStr) : ℤ :=
  pyTrunc (_parse_float value)

/-- `services/scrape_reports.py` `_parse_date` (lines 76-91). -/
def _parse_date (date_str : PyStr) : Option PyDate :=
  if pyStrip date_str = [] then none
  else strptime_ddmmyy date_str

/-- One iteration of the sales row loop (`scrape_sales_pending_orders`,
    lines 138-161): the `len(tds) >= 14` guard, then the `SalesReportItem`
    keyword arguments evaluated in source order (note `tds[18]` for
    `condicao_pagamento` comes before the date fields), then Pydantic
    validation of the two string-fed `Optional[date]` fields. -/
def sales_row_item (tds : List Cell) : Except PyErr (Option SalesReportItem) :=
  if 14 ≤ tds.length then do
    let c0 ← pyIndex tds 0
    let c1 ← pyIndex tds 1
    let c2 ← pyIndex tds 2
    let c4 ← pyIndex tds 4
    let c5 ← pyIndex tds 5
    let c6 ← pyIndex tds 6
    let c7 ← pyIndex tds 7
    let c8 ← pyIndex tds 8
    let c18 ← pyIndex tds 18
    let c3 ← pyIndex tds 3
    let c9 ← pyIndex tds 9
    let c10 ← pyIndex tds 10
    let c11 ← pyIndex tds 11
    let c12 ← pyIndex tds 12
    let c13 ← pyIndex tds 13
    let c14 ← pyIndex tds 14
    let c15 ← pyIndex tds 15
    let c16 ← pyIndex tds 16
    let c17 ← pyIndex tds 17
    let emissao_pv ← pydantic_opt_date (pyStrip c3)
    let previsao ← pydantic_opt_date (pyStrip c9)
    pure (some
      { cliente := pyStrip c0
        negociacao := pyStrip c1
        tipo_servico := pyStrip c2
        emissao_pv := emissao_pv
        pedido_cliente := pyStrip c4
        op := pyStrip c5
        numero_projeto := pyStrip c6
        codigo := pyStrip c7
        produto := pyStrip c8
        previsao := previsao
        qtde_pendente := _parse_int c10
        estoque := _parse_int c11
        valor_unitario := _parse_float c12
        ipi := some (_parse_float c13)
        valor_total := _parse_float c14
        custo_estrutura := _parse_float c15
        lucratividade_rs := _parse_float c16
        lucratividade_percentual := _parse_float c17
        condicao_pagamento := pyStrip c18 })
  else pure none

/-- The sales row loop (`scrape_sales_pending_orders`, lines 134-161): a row
    whose concatenated text strips to empty `break`s out of the loop. -/
def sales_rows : List Tr → Except PyErr (List SalesReportItem)
  | [] => .ok []
  | tr :: trs =>
      if pyStrip tr.flatten = [] then .ok []
      else do
        let item ← sales_row_item tr
        let rest ← sales_rows trs
        pure (match item with | some it => it :: rest | none => rest)

/-- `scrape_sales_pending_orders` after a successful HTTP fetch, given the
    `tr` elements of the `tableExpo` table; `[1:]` drops the header row.
    Parse-stage exceptions propagate: the `except` clause only catches
    `aiohttp.ClientError`. -/
def scrape_sales_pending_orders (trs : List Tr) : Except PyErr (List SalesReportItem) :=
  sales_rows (trs.drop 1)

/-- One iteration of the production-orders row loop
    (`scrape_prod_pending_orders`, lines 214-228): guard is just `if tds:`
    (nonempty), then cells `tds[0]`..`tds[8]` in source order. -/
def prod_row_item (tds : List Cell) : Except PyErr (Option PendingOrdersItem) :=
  if tds.length ≠ 0 then do
    let c0 ← pyIndex tds 0
    let c1 ← pyIndex tds 1
    let c2 ← pyIndex tds 2
    let c3 ← pyIndex tds 3
    let c4 ← pyIndex tds 4
    let c5 ← pyIndex tds 5
    let c6 ← pyIndex tds 6
    let c7 ← pyIndex tds 7
    let c8 ← pyIndex tds 8
    pure (some
      { op := pyStrip c0
        cliente := pyStrip c1
        codigo := pyStrip c2
        produto := pyStrip c3
        criacao := _parse_date (pyStrip c4)
        prazo := _parse_date (pyStrip c5)
        quantidade := _parse_int (pyStrip c6)
        peso := _parse_float (pyStrip c7)
        etapa := pyStrip c8 })
  else pure none

/-- The production-orders row loop: no blank-row `break` exists here. -/
def prod_rows : List Tr → Except PyErr (List PendingOrdersItem)
  | [] => .ok []
  | tr :: trs => do
      let item ← prod_row_item tr
      let rest ← prod_rows trs
      pure (match item with | some it => it :: rest | none => rest)

/-- `scrape_prod_pending_orders` after a successful HTTP fetch. -/
def scrape_prod_pending_orders (trs : List Tr) : Except PyErr (List PendingOrdersItem) :=
  prod_rows (trs.drop 1)

/-- One iteration of the pending-materials row loop
    (`scrape_pending_materials`, lines 279-297): guard is `if tds:`, cells
    `tds[0]`..`tds[11]`, with `tds[8]/tds[9]` split on a space for the
    quantity (`[0]`) and the unit (`[-1]`). -/
def materials_row_item (tds : List Cell) : Except PyErr (Option PendingMaterialsItem) :=
  if tds.length ≠ 0 then do
    let c0 ← pyIndex tds 0
    let c1 ← pyIndex tds 1
    let c2 ← pyIndex tds 2
    let c3 ← pyIndex tds 3
    let c4 ← pyIndex tds 4
    let c5 ← pyIndex tds 5
    let c6 ← pyIndex tds 6
    let c7 ← pyIndex tds 7
    let c8 ← pyIndex tds 8
    let c9 ← pyIndex tds 9
    let c10 ← pyIndex tds 10
    let c11 ← pyIndex tds 11
    pure (some
      { criacao := _parse_date (pyStrip c0)
        servico := pyStrip c1
        codigo := pyStrip c2
        material := pyStrip c3
        op := pyStrip c4
        produto := pyStrip c5
        sub_produto := pyStrip c6
        previsao_op := _parse_date (pyStrip c7)
        quantidade := _parse_float ((pySplit ' ' (pyStrip c8)).headD [])
        pendente := _parse_float ((pySplit ' ' (pyStrip c9)).headD [])
        unidade := (pySplit ' ' (pyStrip c9)).getLastD []
        situacao := pyStrip c10
        previsao_mp := _parse_date (pyStrip c11) })
  else pure none

/-- The pending-materials row loop: no blank-row `break` exists here. -/
def materials_rows : List Tr → Except PyErr (List PendingMaterialsItem)
  | [] => .ok []
  | tr :: trs => do
      let item ← materials_row_item tr
      let rest ← materials_rows trs
      pure (match item with | some it => it :: rest | none => rest)

/-- `scrape_pending_materials` after a successful HTTP fetch. -/
def scrape_pending_materials (trs : List Tr) : Except PyErr (List PendingMaterialsItem) :=
  materials_rows (trs.drop 1)

/-- `services/scrape_reports.py` `combine_data` (lines 306-357).  The dict
    comprehension `{order.op: order for order in pending_orders}` is a
    left-to-right fold where a repeated key overwrites (last write wins); the
    `defaultdict(list)` append loop groups materials by `op` preserving fetch
    order; `materials_map.get(current_op, [])` yields `[]` on a missing key.
    The body is pure, so the `except Exception` branch is unreachable. -/
def combine_data (sales_reports : List SalesReportItem)
    (pending_orders : List PendingOrdersItem)
    (pending_materials : List PendingMaterialsItem) : List FilteredSalesReportItem :=
  let orders_map : PyStr → Option PendingOrdersItem :=
    pending_orders.foldl (fun m order => fun k => if k = order.op then some order else m k)
      (fun _ => none)
  let materials_map : PyStr → List PendingMaterialsItem :=
    pending_materials.foldl
      (fun m material => fun k => if k = material.op then m k ++ [material] else m k)
      (fun _ => [])
  sales_reports.map (fun sales_item =>
    let current_op := sales_item.op
    let matching_order := orders_map current_op
    let etapa_producao := match matching_order with
      | some o => o.etapa
      | none => "N/A".data
    let matching_materials := materials_map current_op
    { negociacao := sales_item.negociacao
      pedido_cliente := sales_item.pedido_cliente
      op := sales_item.op
      tipo_servico := sales_item.tipo_servico
      numero_projeto := sales_item.numero_projeto
      codigo := sales_item.codigo
      produto := sales_item.produto
      previsao := sales_item.previsao
      qtde_pendente := sales_item.qtde_pendente
      valor_unitario := sales_item.valor_unitario
      ipi := sales_item.ipi
      valor_total := sales_item.valor_total
      etapa := etapa_producao
      materiais_pendentes := matching_materials })

/-- `services/scrape_reports.py` `get_combined_report_data` (lines 360-407).
    `asyncio.gather(*tasks, return_exceptions=True)` runs all three tasks to
    completion and hands back each task's outcome (value or captured
    exception); the three arguments here are those completed outcomes.  The
    subsequent loop re-raises the first captured exception; `except Exception`
    catches and logs it, and the function then executes `return combined_list`
    with `combined_list` never assigned, raising `UnboundLocalError` — so any
    task failure makes the whole call raise instead of returning data. -/
def get_combined_report_data (sales_data : Except PyErr (List SalesReportItem))
    (orders_data : Except PyErr (List PendingOrdersItem))
    (materials_data : Except PyErr (List PendingMaterialsItem)) :
    Except PyErr (List FilteredSalesReportItem) :=
  match sales_data, orders_data, materials_data with
  | .ok s, .ok o, .ok m => .ok (combine_data s o m)
  | _, _, _ => .error .unboundLocalError

end ScrapeReports

namespace ScrapePendingOrders

/-- `services/scrape_pending_orders.py` `_parse_float` (lines 14-53), the
    second, self-detecting variant: with both separators present the one with
    the larger `rfind` index (the later one) becomes the decimal point; with
    commas only, a single comma followed by 1-3 characters is the decimal
    point, otherwise commas are stripped; with dots only, several dots are
    stripped and a single dot is left as the decimal point. -/
def _parse_float (value : PyStr) : ℚ :=
  if pyStrip value = [] then 0
  else
    let cleaned_value := pyStrip value
    let has_dot := '.' ∈ cleaned_value
    let has_comma := ',' ∈ cleaned_value
    let cleaned_value :=
      if has_dot ∧ has_comma then
        if pyRfind ',' cleaned_value > pyRfind '.' cleaned_value
        then replaceChar ',' '.' (removeChar '.' cleaned_value)
        else removeChar ',' cleaned_value
      else if has_comma then
        if cleaned_value.count ',' = 1 ∧
           ((pySplit ',' cleaned_value).getD 1 []).length ∈ [1, 2, 3]
        then replaceChar ',' '.' cleaned_value
        else removeChar ',' cleaned_value
      else if 1 < cleaned_value.count '.' then removeChar '.' cleaned_value
      else cleaned_value
    (pyFloat cleaned_value).getD 0

end ScrapePendingOrders

namespace ReportRouter

/-- `api/routes/report_router.py` line 39: the module-level default start
    date, `date.today() - timedelta(days=15)`, computed once at import time.
    Calendar dates are modelled as day ordinals `ℤ`; the `strftime`
    DD/MM/YYYY rendering is an injective display step elided here. -/
def init_date_str (startup_today : ℤ) : ℤ :=
  startup_today - 15

/-- `api/routes/report_router.py` line 40: the module-level default end date,
    `date.today() + timedelta(days=90)`. -/
def end_date_str (startup_today : ℤ) : ℤ :=
  startup_today + 90

/-- The date range actually sent to the external endpoint. -/
structure SentDates where
  dataInicio : ℤ
  dataFim : ℤ
deriving DecidableEq, Repr

/-- `get_sales_pending_orders` date handling (lines 68-81): the handler
    computes local `init_date`/`end_date` from the optional query parameters,
    but the scrape call is made with the module-level `init_date_str` and
    `end_date_str`, so the computed values are discarded. -/
def get_sales_pending_orders_sent_dates (startup_today : ℤ)
    (init_date end_date : Option ℤ) : SentDates :=
  let _init_date : ℤ := match init_date with
    | none => init_date_str startup_today
    | some d => d
  let _end_date : ℤ := match end_date with
    | none => end_date_str startup_today
    | some d => d
  { dataInicio := init_date_str startup_today, dataFim := end_date_str startup_today }

/-- `export_filtered_sales_report` date handling (lines 274-294): identical
    slip — `get_combined_report_data` is called with `init_date_str` and
    `end_date_str`, not with the locals computed from the parameters. -/
def export_filtered_sales_report_sent_dates (startup_today : ℤ)
    (init_date end_date : Option ℤ) : SentDates :=
  let _init_date : ℤ := match init_date with
    | none => init_date_str startup_today
    | some d => d
  let _end_date : ℤ := match end_date with
    | none => end_date_str startup_today
    | some d => d
  { dataInicio := init_date_str startup_today, dataFim := end_date_str startup_today }

/-- What a route handler hands to the framework: a record list, or an
    `HTTPException(status, ...)`; `cause` carries the exception interpolated
    into the 500 detail string, when there is one. -/
inductive RouteOutcome (α : Type) where
  | items (l : List α)
  | failure (status : ℕ) (cause : Option PyErr)
deriving DecidableEq, Repr

/-- `get_sales_pending_orders` (lines 68-91) as a function of the scrape
    call's outcome.  The `raise HTTPException(404)` for an empty result sits
    inside the `try`, so the blanket `except Exception` catches it and
    re-raises `HTTPException(500, f"Error fetching sales pending orders:
    {e}")` with the 404 exception interpolated into the detail. -/
def get_sales_pending_orders_route (report_data : Except PyErr (List SalesReportItem)) :
    RouteOutcome SalesReportItem :=
  match report_data with
  | .error e => .failure 500 (some e)
  | .ok data =>
      if data = [] then .failure 500 (some (.httpException 404))
      else .items data

/-- `get_prod_pending_orders` (lines 125-155): same structure as the sales
    route, including the swallowed 404. -/
def get_prod_pending_orders_route (report_data : Except PyErr (List PendingOrdersItem)) :
    RouteOutcome PendingOrdersItem :=
  match report_data with
  | .error e => .failure 500 (some e)
  | .ok data =>
      if data = [] then .failure 500 (some (.httpException 404))
      else .items data

end ReportRouter

namespace FormatExcel

/-- One entry of the flattened `materiais_pendentes` display list
    (`format_excel.py` lines 33-45), kept structured: the f-string renders
    `codigo`, `pendente`, `situacao` and the `previsao_mp` date (or "N/A"
    when absent). -/
structure MaterialLine where
  codigo : PyStr
  pendente : ℚ
  situacao : PyStr
  prev : Option PyDate
deriving DecidableEq, Repr

/-- Build one display entry from a dumped material. -/
def material_line (mat : PendingMaterialsItem) : MaterialLine :=
  { codigo := mat.codigo
    pendente := mat.pendente
    situacao := mat.situacao
    prev := mat.previsao_mp }

/-- One row handed to the DataFrame: the consolidated record with its
    materials list flattened for display. -/
structure DumpedRow where
  negociacao : PyStr
  pedido_cliente : PyStr
  op : PyStr
  tipo_servico : PyStr
  numero_projeto : PyStr
  codigo : PyStr
  produto : PyStr
  previsao : Option PyDate
  qtde_pendente : ℤ
  valor_unitario : ℚ
  ipi : Option ℚ
  valor_total : ℚ
  etapa : PyStr
  materiais_pendentes : List MaterialLine
deriving DecidableEq, Repr

/-- `item.model_dump()` followed by the materials-flattening loop. -/
def dump_row (item : FilteredSalesReportItem) : DumpedRow :=
  { negociacao := item.negociacao
    pedido_cliente := item.pedido_cliente
    op := item.op
    tipo_servico := item.tipo_servico
    numero_projeto := item.numero_projeto
    codigo := item.codigo
    produto := item.produto
    previsao := item.previsao
    qtde_pendente := item.qtde_pendente
    valor_unitario := item.valor_unitario
    ipi := item.ipi
    valor_total := item.valor_total
    etapa := item.etapa
    materiais_pendentes := item.materiais_pendentes.map material_line }

/-- The two kinds of value `format_data_for_excel` can return: a bare pandas
    `DataFrame` object, or the `.xlsx` byte buffer (`output.getvalue()`).
    The spreadsheet byte encoding itself is the out-of-scope exporter
    collaborator, so the buffer is represented by the rows written into it. -/
inductive PdResult where
  | dataFrame (rows : List DumpedRow)
  | xlsxBytes (rows : List DumpedRow)
deriving DecidableEq, Repr

/-- `core/utils/format_excel.py` `format_data_for_excel` (lines 7-87): an
    empty input returns `pd.DataFrame()` (an empty DataFrame object, despite
    the declared `-> bytes`); otherwise the dumped, flattened rows are
    written to the spreadsheet and its bytes returned. -/
def format_data_for_excel (report_data : List FilteredSalesReportItem) : PdResult :=
  if report_data = [] then .dataFrame []
  else .xlsxBytes (report_data.map dump_row)

end FormatExcel

/-- Spec-side (§4.7): the production order resolved for a key — the *last*
    fetched order whose `op` equals the key, if any. -/
def lastOrderFor (pending_orders : List PendingOrdersItem) (op : PyStr) :
    Option PendingOrdersItem :=
  pending_orders.reverse.find? (fun o => o.op == op)

/-- Spec-side (§4.7): the pending materials sharing a key, in fetch order. -/
def materialsFor (pending_materials : List PendingMaterialsItem) (op : PyStr) :
    List PendingMaterialsItem :=
  pending_materials.filter (fun m => m.op == op)

/-- Spec-side (§4.7): the consolidated record the spec prescribes for one
    sales record. -/
def expectedConsolidated (pending_orders : List PendingOrdersItem)
    (pending_materials : List PendingMaterialsItem) (s : SalesReportItem) :
    FilteredSalesReportItem :=
  { negociacao := s.negociacao
    pedido_cliente := s.pedido_cliente
    op := s.op
    tipo_servico := s.tipo_servico
    numero_projeto := s.numero_projeto
    codigo := s.codigo
    produto := s.produto
    previsao := s.previsao
    qtde_pendente := s.qtde_pendente
    valor_unitario := s.valor_unitario
    ipi := s.ipi
    valor_total := s.valor_total
    etapa := match lastOrderFor pending_orders s.op with
      | some o => o.etapa
      | none => "N/A".data
    materiais_pendentes := materialsFor pending_materials s.op }

/-- Spec-side: a string of digit groups joined by a fixed separator, e.g.
    `sepJoin '.' [["1"], ["3","0","0"]] = "1.300"`. -/
def sepJoin (sep : Char) : List PyStr → PyStr
  | [] => []
  | [p] => p
  | p :: q :: ps => p ++ sep :: sepJoin sep (q :: ps)

/-- Decidable equality for `Except` outcomes, so that concrete runs can be
    checked by evaluation. -/
instance {ε α : Type} [DecidableEq ε] [DecidableEq α] : DecidableEq (Except ε α)
  | .ok a, .ok b =>
      if h : a = b then isTrue (by rw [h])
      else isFalse (fun he => h (by injection he))
  | .ok _, .error _ => isFalse (fun h => Except.noConfusion h)
  | .error _, .ok _ => isFalse (fun h => Except.noConfusion h)
  | .error e, .error f =>
      if h : e = f then isTrue (by rw [h])
      else isFalse (fun he => h (by injection he))

/-- A concrete consolidated record, used to exercise the export path. -/
def sampleConsolidated : FilteredSalesReportItem :=
  { negociacao := []
    pedido_cliente := []
    op := ['A']
    tipo_servico := []
    numero_projeto := []
    codigo := []
    produto := []
    previsao := none
    qtde_pendente := 0
    valor_unitario := 0
    ipi := none
    valor_total := 0
    etapa := []
    materiais_pendentes := [] }

namespace ScrapeReports

end ScrapeReports

/-! ## Lemmas about the string model -/

theorem pySplit_no_sep {sep : Char} {l : PyStr} (h : sep ∉ l) : pySplit sep l = [l] := by
  induction l with
  | nil => rfl
  | cons c rest ih =>
    have hc : c ≠ sep := by rintro rfl; exact h (List.mem_cons_self _ _)
    have hr : sep ∉ rest := fun m => h (List.mem_cons_of_mem _ m)
    simp [pySplit, hc, ih hr]

theorem pySplit_append (sep : Char) {p : PyStr} (hp : sep ∉ p) (t : PyStr) :
    pySplit sep (p ++ sep :: t) = p :: pySplit sep t := by
  induction p with
  | nil => simp [pySplit]
  | cons c q ih =>
    have hc : c ≠ sep := by rintro rfl; exact hp (List.mem_cons_self _ _)
    have hq : sep ∉ q := fun m => hp (List.mem_cons_of_mem _ m)
    have hrec : pySplit sep (q ++ sep :: t) = q :: pySplit sep t := ih hq
    simp only [List.cons_append, pySplit, if_neg hc, List.append_eq, hrec]

theorem mem_sepJoin {sep : Char} {parts : List PyStr} {c : Char}
    (h : c ∈ sepJoin sep parts) : c = sep ∨ ∃ p ∈ parts, c ∈ p := by
  induction parts with
  | nil => simp [sepJoin] at h
  | cons p rest ih =>
    cases rest with
    | nil => exact Or.inr ⟨p, by simp, by simpa [sepJoin] using h⟩
    | cons q ps =>
      simp only [sepJoin] at h
      rcases List.mem_append.mp h with h1 | h1
      · exact Or.inr ⟨p, by simp, h1⟩
      · rcases List.mem_cons.mp h1 with h2 | h2
        · exact Or.inl h2
        · rcases ih h2 with h3 | ⟨r, hr, hcr⟩
          · exact Or.inl h3
          · exact Or.inr ⟨r, List.mem_cons_of_mem _ hr, hcr⟩

theorem sep_mem_sepJoin {sep : Char} {parts : List PyStr} (h : 2 ≤ parts.length) :
    sep ∈ sepJoin sep parts := by
  cases parts with
  | nil => simp at h
  | cons p rest =>
    cases rest with
    | nil => simp at h
    | cons q ps => simp [sepJoin]

theorem pySplit_sepJoin {sep : Char} {parts : List PyStr} (hne : parts ≠ [])
    (hp : ∀ p ∈ parts, sep ∉ p) : pySplit sep (sepJoin sep parts) = parts := by
  induction parts with
  | nil => simp at hne
  | cons p rest ih =>
    cases rest with
    | nil => simp [sepJoin, pySplit_no_sep (hp p (by simp))]
    | cons q ps =>
      simp only [sepJoin]
      rw [pySplit_append sep (hp p (by simp)),
        ih (by simp) (fun r hr => hp r (List.mem_cons_of_mem _ hr))]

theorem count_sepJoin {sep : Char} {parts : List PyStr}
    (hp : ∀ p ∈ parts, sep ∉ p) : (sepJoin sep parts).count sep = parts.length - 1 := by
  induction parts with
  | nil => simp [sepJoin]
  | cons p rest ih =>
    cases rest with
    | nil => simp [sepJoin, List.count_eq_zero.mpr (hp p (by simp))]
    | cons q ps =>
      have h0 : (p : PyStr).count sep = 0 := List.count_eq_zero.mpr (hp p (by simp))
      have ihr := ih (fun r hr => hp r (List.mem_cons_of_mem _ hr))
      simp only [sepJoin, List.count_append, h0, List.count_cons_self] at *
      simp only [List.length_cons] at *
      omega

theorem removeChar_eq_self {c : Char} {l : PyStr} (h : c ∉ l) : removeChar c l = l := by
  unfold removeChar
  rw [List.filter_eq_self]
  intro a ha
  simp only [ne_eq, decide_eq_true_eq]
  rintro rfl
  exact h ha

theorem removeChar_append (c : Char) (l₁ l₂ : PyStr) :
    removeChar c (l₁ ++ l₂) = removeChar c l₁ ++ removeChar c l₂ :=
  List.filter_append _ _

theorem removeChar_cons_self (c : Char) (l : PyStr) :
    removeChar c (c :: l) = removeChar c l := by
  simp [removeChar]

theorem removeChar_sepJoin {sep : Char} {parts : List PyStr}
    (hp : ∀ p ∈ parts, sep ∉ p) : removeChar sep (sepJoin sep parts) = parts.flatten := by
  induction parts with
  | nil => simp [sepJoin, removeChar]
  | cons p rest ih =>
    cases rest with
    | nil => simp [sepJoin, removeChar_eq_self (hp p (by simp))]
    | cons q ps =>
      have ihr := ih (fun r hr => hp r (List.mem_cons_of_mem _ hr))
      simp only [sepJoin, removeChar_append, removeChar_cons_self,
        removeChar_eq_self (hp p (by simp)), ihr, List.flatten_cons]

theorem replaceChar_eq_self {a b : Char} {l : PyStr} (h : a ∉ l) : replaceChar a b l = l := by
  unfold replaceChar
  have step : ∀ x ∈ l, (if x = a then b else x) = id x := by
    intro x hx
    simp only [id]
    rw [if_neg]
    rintro rfl
    exact h hx
  rw [List.map_congr_left step, List.map_id]

theorem replaceChar_append (a b : Char) (l₁ l₂ : PyStr) :
    replaceChar a b (l₁ ++ l₂) = replaceChar a b l₁ ++ replaceChar a b l₂ :=
  List.map_append _ _ _

theorem replaceChar_cons_self (a b : Char) (l : PyStr) :
    replaceChar a b (a :: l) = b :: replaceChar a b l := by
  simp [replaceChar]

theorem pyStrip_eq_self {l : PyStr} (h : ∀ c ∈ l, pyIsSpace c = false) : pyStrip l = l := by
  have drop : ∀ m : PyStr, (∀ c ∈ m, pyIsSpace c = false) → m.dropWhile pyIsSpace = m := by
    intro m hm
    cases m with
    | nil => rfl
    | cons c t => rw [List.dropWhile_cons, hm c (List.mem_cons_self _ _)]; simp
  unfold pyStrip
  rw [drop l h, drop l.reverse (fun c hc => h c (List.mem_reverse.mp hc)), List.reverse_reverse]

/-! ## Lemmas about characters and the float model -/

theorem not_space_of_isDigit {c : Char} (h : c.isDigit = true) : pyIsSpace c = false := by
  cases hsp : pyIsSpace c with
  | false => rfl
  | true =>
    exfalso
    unfold pyIsSpace at hsp
    simp only [Bool.or_eq_true, decide_eq_true_eq] at hsp
    rcases hsp with ((((rfl | rfl) | rfl) | rfl) | rfl) | rfl <;> exact absurd h (by decide)

theorem ne_of_isDigit {c : Char} (h : c.isDigit = true) :
    c ≠ '.' ∧ c ≠ ',' ∧ c ≠ '-' ∧ c ≠ '+' := by
  refine ⟨?_, ?_, ?_, ?_⟩ <;> rintro rfl <;> revert h <;> decide

theorem not_mem_of_all_digits {l : PyStr} (hd : l.all Char.isDigit = true) {c : Char}
    (hc : c.isDigit = false) : c ∉ l := by
  intro m
  have hmem := List.all_eq_true.mp hd c m
  rw [hc] at hmem
  exact absurd hmem (by decide)

theorem pyFloatUnsigned_digits {l : PyStr} (hne : l ≠ []) (hd : l.all Char.isDigit = true) :
    pyFloatUnsigned l = some (digitsVal l : ℚ) := by
  have hdot : '.' ∉ l := not_mem_of_all_digits hd (by decide)
  unfold pyFloatUnsigned
  rw [pySplit_no_sep hdot]
  simp [hne, hd]

theorem pyFloat_digits {l : PyStr} (hne : l ≠ []) (hd : l.all Char.isDigit = true) :
    pyFloat l = some (digitsVal l : ℚ) := by
  cases l with
  | nil => simp at hne
  | cons c t =>
    have hcd : c.isDigit = true := List.all_eq_true.mp hd c (List.mem_cons_self _ _)
    obtain ⟨-, -, h3, h4⟩ := ne_of_isDigit hcd
    simp only [pyFloat, if_neg h3, if_neg h4]
    exact pyFloatUnsigned_digits hne hd

theorem pyFloat_decimal {a b : PyStr} (ha : a.all Char.isDigit = true)
    (hb : b.all Char.isDigit = true) (hne : a ≠ [] ∨ b ≠ []) :
    pyFloat (a ++ '.' :: b) =
      some ((digitsVal a : ℚ) + (digitsVal b : ℚ) / 10 ^ b.length) := by
  have hda : '.' ∉ a := not_mem_of_all_digits ha (by decide)
  have hdb : '.' ∉ b := not_mem_of_all_digits hb (by decide)
  have hsplit : pySplit '.' (a ++ '.' :: b) = [a, b] := by
    rw [pySplit_append '.' hda, pySplit_no_sep hdb]
  have hu : pyFloatUnsigned (a ++ '.' :: b) =
      some ((digitsVal a : ℚ) + (digitsVal b : ℚ) / 10 ^ b.length) := by
    unfold pyFloatUnsigned
    rw [hsplit]
    simp [hne, ha, hb]
  cases a with
  | nil =>
    simpa only [List.nil_append, pyFloat, if_neg (by decide : ¬('.' = '-')),
      if_neg (by decide : ¬('.' = '+'))] using hu
  | cons c t =>
    have hcd : c.isDigit = true := List.all_eq_true.mp ha c (List.mem_cons_self _ _)
    obtain ⟨-, -, h3, h4⟩ := ne_of_isDigit hcd
    simpa only [List.cons_append, pyFloat, if_neg h3, if_neg h4] using hu

theorem pyRfind_not_mem {ch : Char} {l : PyStr} (h : ch ∉ l) : pyRfind ch l = -1 := by
  induction l with
  | nil => rfl
  | cons c rest ih =>
    have hc : ¬(c = ch) := by rintro rfl; exact h (List.mem_cons_self _ _)
    have hr := ih (fun m => h (List.mem_cons_of_mem _ m))
    simp [pyRfind, hr, hc]

theorem le_pyRfind_of_mem {ch : Char} {l : PyStr} (h : ch ∈ l) : 0 ≤ pyRfind ch l := by
  induction l with
  | nil => simp at h
  | cons c rest ih =>
    by_cases hm : ch ∈ rest
    · have h0 := ih hm
      simp only [pyRfind]
      rw [if_pos (by omega)]
      omega
    · have hc : c = ch := by
        rcases List.mem_cons.mp h with h1 | h1
        · exact h1.symm
        · exact absurd h1 hm
      simp [pyRfind, pyRfind_not_mem hm, hc]

theorem pyRfind_lt_length (ch : Char) (l : PyStr) : pyRfind ch l < (l.length : ℤ) := by
  induction l with
  | nil => simp [pyRfind]
  | cons c rest ih =>
    simp only [pyRfind, List.length_cons]
    split
    · push_cast
      omega
    · split <;> (push_cast; omega)

theorem pyRfind_append (ch : Char) (a b : PyStr) :
    pyRfind ch (a ++ b) =
      if ch ∈ b then (a.length : ℤ) + pyRfind ch b else pyRfind ch a := by
  induction a with
  | nil =>
    by_cases hm : ch ∈ b <;> simp [hm, pyRfind, pyRfind_not_mem]
  | cons c a ih =>
    by_cases hm : ch ∈ b
    · have h0 : 0 ≤ pyRfind ch b := le_pyRfind_of_mem hm
      have ha : pyRfind ch (a ++ b) = (a.length : ℤ) + pyRfind ch b := by
        rw [ih, if_pos hm]
      simp only [List.cons_append, pyRfind, List.append_eq, ha, List.length_cons, if_pos hm]
      rw [if_pos (by omega)]
      push_cast
      ring
    · have ha : pyRfind ch (a ++ b) = pyRfind ch a := by rw [ih, if_neg hm]
      simp only [List.cons_append, pyRfind, List.append_eq, ha, if_neg hm]

/-! ## The dict comprehension and defaultdict grouping of `combine_data` -/

theorem foldl_orders_lookup (orders : List PendingOrdersItem)
    (m : PyStr → Option PendingOrdersItem) (k : PyStr) :
    (orders.foldl (fun m order => fun k => if k = order.op then some order else m k) m) k =
      match lastOrderFor orders k with
      | some o => some o
      | none => m k := by
  induction orders using List.reverseRecOn generalizing m with
  | nil => simp [lastOrderFor]
  | append_singleton l o ih =>
    rw [List.foldl_append]
    simp only [List.foldl_cons, List.foldl_nil]
    unfold lastOrderFor
    rw [List.reverse_append]
    simp only [List.reverse_cons, List.reverse_nil, List.nil_append, List.singleton_append]
    by_cases hk : k = o.op
    · have hbeq : (o.op == k) = true := by simp [hk]
      simp [List.find?_cons, hbeq, if_pos hk]
    · have hbeq : (o.op == k) = false := by
        simp only [beq_eq_false_iff_ne, ne_eq]
        exact fun e => hk (e.symm)
      simp only [List.find?_cons, hbeq]
      rw [if_neg hk, ih]
      rfl

theorem foldl_materials_lookup (materials : List PendingMaterialsItem)
    (m : PyStr → List PendingMaterialsItem) (k : PyStr) :
    (materials.foldl
        (fun m material => fun k => if k = material.op then m k ++ [material] else m k) m) k =
      m k ++ materialsFor materials k := by
  induction materials using List.reverseRecOn generalizing m with
  | nil => simp [materialsFor]
  | append_singleton l mat ih =>
    rw [List.foldl_append]
    simp only [List.foldl_cons, List.foldl_nil]
    unfold materialsFor
    rw [List.filter_append]
    by_cases hk : k = mat.op
    · have hbeq : (mat.op == k) = true := by simp [hk]
      rw [if_pos hk, ih]
      simp [List.filter_cons, hbeq, materialsFor, List.append_assoc]
    · have hbeq : (mat.op == k) = false := by
        simp only [beq_eq_false_iff_ne, ne_eq]
        exact fun e => hk (e.symm)
      rw [if_neg hk, ih]
      simp [List.filter_cons, hbeq, materialsFor]

theorem combine_data_eq (sales : List SalesReportItem) (orders : List PendingOrdersItem)
    (materials : List PendingMaterialsItem) :
    ScrapeReports.combine_data sales orders materials =
      sales.map (expectedConsolidated orders materials) := by
  simp only [ScrapeReports.combine_data]
  refine List.map_congr_left fun s hs => ?_
  rw [foldl_orders_lookup, foldl_materials_lookup]
  cases h : lastOrderFor orders s.op with
  | none => simp [expectedConsolidated, h]
  | some o => simp [expectedConsolidated, h]

/-! ## Sign and default behaviour of the numeric parsers -/

theorem getLastD_mem {α : Type} {l : List α} (h : l ≠ []) (d : α) : l.getLastD d ∈ l := by
  induction l generalizing d with
  | nil => simp at h
  | cons a t ih =>
    cases t with
    | nil => simp [List.getLastD]
    | cons b u =>
      have := ih (d := a) (by simp)
      simp [List.getLastD] at this ⊢

theorem flatten_all_digits {parts : List PyStr}
    (h : ∀ p ∈ parts, p.all Char.isDigit = true) : parts.flatten.all Char.isDigit = true := by
  rw [List.all_eq_true]
  intro c hc
  rcases List.mem_flatten.mp hc with ⟨p, hp, hcp⟩
  exact List.all_eq_true.mp (h p hp) c hcp

theorem flatten_ne_nil_of_head {parts : List PyStr} {p : PyStr} {rest : List PyStr}
    (h : parts = p :: rest) (hp : p ≠ []) : parts.flatten ≠ [] := by
  subst h
  simp only [List.flatten_cons]
  intro hcontra
  exact hp (List.append_eq_nil.mp hcontra).1

theorem removeChar_cons_ne {a c : Char} (h : a ≠ c) (l : PyStr) :
    removeChar c (a :: l) = a :: removeChar c l := by
  simp [removeChar, h]

theorem ScrapeReports_parse_float_blank {value : PyStr} (h : pyStrip value = []) :
    ScrapeReports._parse_float value = 0 := by
  unfold ScrapeReports._parse_float
  simp [h]

theorem ScrapeReports_parse_int_blank {value : PyStr} (h : pyStrip value = []) :
    ScrapeReports._parse_int value = 0 := by
  unfold ScrapeReports._parse_int pyTrunc
  rw [ScrapeReports_parse_float_blank h]
  norm_num

theorem pyStrip_digit_sep_string {s : PyStr}
    (h : ∀ c ∈ s, c.isDigit = true ∨ c = '.' ∨ c = ',') : pyStrip s = s := by
  apply pyStrip_eq_self
  intro c hc
  rcases h c hc with h1 | h1 | h1
  · exact not_space_of_isDigit h1
  · subst h1; decide
  · subst h1; decide

theorem mem_sepJoin_append_cons {sep sep2 : Char} {parts : List PyStr} {frac : PyStr} {c : Char}
    (hc : c ∈ sepJoin sep parts ++ sep2 :: frac) :
    c = sep ∨ c = sep2 ∨ (∃ p ∈ parts, c ∈ p) ∨ c ∈ frac := by
  rcases List.mem_append.mp hc with h | h
  · rcases mem_sepJoin h with h1 | h1
    · exact Or.inl h1
    · exact Or.inr (Or.inr (Or.inl h1))
  · rcases List.mem_cons.mp h with h1 | h1
    · exact Or.inr (Or.inl h1)
    · exact Or.inr (Or.inr (Or.inr h1))

/-! ## Reduction helpers for `Except` runs -/

theorem except_bind_ok {ε α β : Type} (a : α) (f : α → Except ε β) :
    (Except.ok a : Except ε α) >>= f = f a := rfl

theorem except_bind_error {ε α β : Type} (e : ε) (f : α → Except ε β) :
    (Except.error e : Except ε α) >>= f = .error e := rfl

theorem except_pure {ε α : Type} (a : α) : (pure a : Except ε α) = .ok a := rfl

theorem pyIndex_replicate (n : ℕ) (c : Cell) (i : ℕ) :
    pyIndex (List.replicate n c) i = if i < n then .ok c else .error .indexError := by
  unfold pyIndex
  by_cases h : i < n <;> simp [List.getElem?_replicate, h]

/-! ## Claim theorems -/

/-- **C1** (confirmed): `combine_data` returns exactly one consolidated record
    per sales record, in the sales records' original order; each record's
    `etapa` is the `etapa` of the *last* fetched production order whose `op`
    matches (the dict comprehension is last-write-wins), or `"N/A"` when none
    matches; its `materiais_pendentes` is the sublist of pending materials
    with the same `op` in their fetch order, `[]` when none match; unmatched
    orders/materials never appear, so the output length equals the sales input
    length.  `expectedConsolidated` states exactly that record shape. -/
theorem combine_data_left_outer_join (sales : List SalesReportItem)
    (orders : List PendingOrdersItem) (materials : List PendingMaterialsItem) :
    (ScrapeReports.combine_data sales orders materials).length = sales.length ∧
    ∀ i : ℕ, (ScrapeReports.combine_data sales orders materials)[i]? =
      (sales[i]?).map (expectedConsolidated orders materials) := by
  constructor
  · rw [combine_data_eq]
    exact List.length_map _ _
  · intro i
    rw [combine_data_eq]
    exact List.getElem?_map _ _ _

/-- **C3** (confirmed): the consolidated-report orchestrator consumes the
    completed outcomes of all three gathered tasks
    (`asyncio.gather(..., return_exceptions=True)` never cancels a sibling);
    if any outcome is an exception, the whole call raises (concretely
    `UnboundLocalError`, because the `except` block swallows the re-raised
    task error and `return combined_list` then reads an unassigned local) and
    never returns the successful tasks' partial data. -/
theorem get_combined_report_data_all_or_nothing
    (sales_res : Except PyErr (List SalesReportItem))
    (orders_res : Except PyErr (List PendingOrdersItem))
    (materials_res : Except PyErr (List PendingMaterialsItem))
    (h : (∃ e, sales_res = .error e) ∨ (∃ e, orders_res = .error e) ∨
         (∃ e, materials_res = .error e)) :
    ScrapeReports.get_combined_report_data sales_res orders_res materials_res =
      .error .unboundLocalError ∧
    ∀ l, ScrapeReports.get_combined_report_data sales_res orders_res materials_res ≠
      .ok l := by
  have hmain : ScrapeReports.get_combined_report_data sales_res orders_res materials_res =
      .error .unboundLocalError := by
    cases sales_res <;> cases orders_res <;> cases materials_res <;>
      first
        | rfl
        | (exfalso
           rcases h with ⟨e, he⟩ | ⟨e, he⟩ | ⟨e, he⟩ <;> simp at he)
  refine ⟨hmain, fun l hl => ?_⟩
  rw [hmain] at hl
  simp at hl

/-- C3 witness: one failed task and two successful ones make the whole call
    raise. -/
theorem get_combined_report_data_all_or_nothing_witness :
    ScrapeReports.get_combined_report_data (.error .attributeError) (.ok []) (.ok []) =
      .error .unboundLocalError :=
  (get_combined_report_data_all_or_nothing _ _ _ (Or.inl ⟨.attributeError, rfl⟩)).1

/-- **C4** (code bug evidence): the sales mapper guards with
    `len(tds) >= 14` but reads `tds[18]`, so a body row with exactly 14 cells
    raises `IndexError` instead of being skipped; the production and materials
    mappers guard only `if tds:` but read `tds[8]` / `tds[11]`, so a 5-cell
    row raises `IndexError` in both.  Only `aiohttp.ClientError` is caught, so
    the error escapes the fetcher. -/
theorem short_row_raises_index_error :
    ScrapeReports.scrape_sales_pending_orders [[['h']], List.replicate 14 ['x']] =
      .error .indexError ∧
    ScrapeReports.scrape_prod_pending_orders [[['h']], List.replicate 5 ['x']] =
      .error .indexError ∧
    ScrapeReports.scrape_pending_materials [[['h']], List.replicate 5 ['x']] =
      .error .indexError := by
  decide

/-- **C5** (amended): the *sales* row loop stops at the first body row whose
    concatenated text is entirely whitespace — processing a row list is the
    same as processing its longest blank-free prefix.  (The production and
    materials loops have no such stop; see the counterexample.) -/
theorem sales_rows_stop_at_first_blank (trs : List Tr) :
    ScrapeReports.sales_rows trs =
      ScrapeReports.sales_rows (trs.takeWhile fun tr => !(pyStrip tr.flatten).isEmpty) := by
  induction trs with
  | nil => rfl
  | cons tr rest ih =>
    by_cases hb : pyStrip tr.flatten = []
    · have hE : (pyStrip tr.flatten).isEmpty = true := by simp [hb]
      simp [ScrapeReports.sales_rows, hb, List.takeWhile_cons, hE]
    · have hE : (pyStrip tr.flatten).isEmpty = false := by
        cases h' : pyStrip tr.flatten with
        | nil => exact absurd h' hb
        | cons a t => rfl
      simp only [ScrapeReports.sales_rows, if_neg hb, List.takeWhile_cons, hE,
        Bool.not_false, if_true, ih]

/-- **C5** counterexample: in the production fetcher a row of nine
    whitespace-only cells does *not* terminate extraction — it is mapped to a
    default-valued record and the following non-blank row is still mapped, so
    two records come out where the claim predicts zero from the blank row
    onward. -/
theorem prod_rows_do_not_stop_at_blank :
    ScrapeReports.scrape_prod_pending_orders
        [[['h']], List.replicate 9 [], List.replicate 9 ['7']] =
      .ok [{ op := [], cliente := [], codigo := [], produto := [], criacao := none,
             prazo := none, quantidade := 0, peso := 0, etapa := [] },
           { op := ['7'], cliente := ['7'], codigo := ['7'], produto := ['7'],
             criacao := none, prazo := none, quantidade := 7, peso := 7,
             etapa := ['7'] }] := by
  have s0 : pyStrip ([] : PyStr) = [] := rfl
  have s7 : pyStrip ['7'] = ['7'] := by decide
  have f0 : ScrapeReports._parse_float [] = 0 := ScrapeReports_parse_float_blank (by decide)
  have f7 : ScrapeReports._parse_float ['7'] = 7 := by
    simp [ScrapeReports._parse_float, pyStrip, pyIsSpace, List.dropWhile, pySplit,
          pyFloat, pyFloatUnsigned, digitsVal]
  have i0 : ScrapeReports._parse_int [] = 0 := ScrapeReports_parse_int_blank (by decide)
  have i7 : ScrapeReports._parse_int ['7'] = 7 := by
    norm_num [ScrapeReports._parse_int, f7, pyTrunc]
  have d0 : ScrapeReports._parse_date [] = none := by decide
  have d7 : ScrapeReports._parse_date ['7'] = none := by decide
  simp [ScrapeReports.scrape_prod_pending_orders, ScrapeReports.prod_rows,
        ScrapeReports.prod_row_item, pyIndex_replicate, except_bind_ok, except_bind_error,
        except_pure, s0, s7, f0, f7, i0, i7, d0, d7]
  simp [pyIndex, except_bind_ok, except_pure, s0, s7, f0, f7, i0, i7, d0, d7]

/-- **C7** (code bug evidence): a successful scrape with zero records takes
    the `raise HTTPException(404)` path, but that raise happens inside the
    `try`, so the blanket `except Exception` converts it into an
    `HTTPException(500, ...)` whose detail wraps the 404 — the client observes
    500, never 404, for both single-source routes. -/
theorem zero_record_route_returns_500 :
    ReportRouter.get_sales_pending_orders_route (.ok []) =
      .failure 500 (some (.httpException 404)) ∧
    ReportRouter.get_prod_pending_orders_route (.ok []) =
      .failure 500 (some (.httpException 404)) ∧
    ∀ c, ReportRouter.get_sales_pending_orders_route (.ok []) ≠
      .failure 404 c := by
  refine ⟨rfl, rfl, fun c h => ?_⟩
  simp [ReportRouter.get_sales_pending_orders_route] at h

/-- **C8** (code bug evidence): with the parameters omitted the dates sent to
    the external endpoint are the module-load defaults `today − 15` and
    `today + 90`; but when the caller supplies explicit dates the handlers
    compute and then *discard* them, still sending the module-level defaults
    (here: supplied `7`/`21`, sent `−15`/`90`). -/
theorem routes_ignore_supplied_dates :
    (∀ t : ℤ, ReportRouter.get_sales_pending_orders_sent_dates t none none =
      ⟨t - 15, t + 90⟩) ∧
    ReportRouter.get_sales_pending_orders_sent_dates 0 (some 7) (some 21) = ⟨-15, 90⟩ ∧
    ReportRouter.export_filtered_sales_report_sent_dates 0 (some 7) (some 21) =
      ⟨-15, 90⟩ ∧
    (ReportRouter.SentDates.mk (-15) 90 ≠ ⟨7, 21⟩) := by
  refine ⟨fun t => rfl, by decide, by decide, by decide⟩

/-- **C10** (confirmed): `format_data_for_excel` returns a bare empty
    `DataFrame` object — not bytes — exactly when the record list is empty,
    and the spreadsheet byte buffer built from the dumped, flattened rows for
    every non-empty list. -/
theorem format_data_for_excel_return_shape (report_data : List FilteredSalesReportItem) :
    (report_data = [] →
      FormatExcel.format_data_for_excel report_data = .dataFrame []) ∧
    (report_data ≠ [] →
      FormatExcel.format_data_for_excel report_data =
        .xlsxBytes (report_data.map FormatExcel.dump_row)) := by
  constructor
  · intro h
    simp [FormatExcel.format_data_for_excel, h]
  · intro h
    simp [FormatExcel.format_data_for_excel, h]

/-- C10 witness: a one-record list produces the byte buffer. -/
theorem format_data_for_excel_return_shape_witness :
    FormatExcel.format_data_for_excel [sampleConsolidated] =
      .xlsxBytes ([sampleConsolidated].map FormatExcel.dump_row) :=
  (format_data_for_excel_return_shape [sampleConsolidated]).2 (by simp)

/-- **C2** counterexample: on the US-style string `"1,234.56"` the
    `_parse_float` of `scrape_reports.py` treats the comma as the decimal
    point (it always does when a comma is present), producing `1.23456`
    instead of the `1234.56` the claim requires. -/
theorem reports_parse_float_us_style_counterexample :
    ScrapeReports._parse_float "1,234.56".data = (123456 : ℚ) / 100000 ∧
    ((123456 : ℚ) / 100000) ≠ (123456 : ℚ) / 100 := by
  constructor
  · simp [ScrapeReports._parse_float, pyStrip, pyIsSpace, List.dropWhile, removeChar,
          replaceChar, pySplit, pyFloat, pyFloatUnsigned, digitsVal]
    norm_num
  · norm_num

/-- **C9** counterexample: with dots only, the `scrape_reports.py` parser does
    *not* strip all dots of a multi-dot string unless exactly three characters
    follow the last dot (`"1.234.56"` → `1234.56`, not `123456`); and the
    `scrape_pending_orders.py` parser keeps a single dot as the decimal point
    regardless of the three-digit rule (`"1.300"` → `1.3`, not `1300`). -/
theorem dot_only_parse_counterexample :
    ScrapeReports._parse_float "1.234.56".data = (123456 : ℚ) / 100 ∧
    ((123456 : ℚ) / 100) ≠ (123456 : ℚ) ∧
    ScrapePendingOrders._parse_float "1.300".data = (13 : ℚ) / 10 ∧
    ((13 : ℚ) / 10) ≠ (1300 : ℚ) := by
  refine ⟨?_, by norm_num, ?_, by norm_num⟩
  · simp [ScrapeReports._parse_float, pyStrip, pyIsSpace, List.dropWhile, removeChar,
          replaceChar, pySplit, pyFloat, pyFloatUnsigned, digitsVal]
    norm_num
  · simp [ScrapePendingOrders._parse_float, pyStrip, pyIsSpace, List.dropWhile, removeChar,
          replaceChar, pySplit, pyFloat, pyFloatUnsigned, digitsVal, pyRfind, List.count,
          List.countP, List.countP.go]
    norm_num

/-- **C2** (amended): the last-separator rule holds for the `_parse_float` of
    `scrape_pending_orders.py`: when both separators appear, the one appearing
    later is the decimal point and the other is stripped as grouping — a
    comma-grouped string with a dot fraction and the mirrored dot-grouped
    string with a comma fraction both parse to the grouped digits plus the
    fraction.  The `_parse_float` of `scrape_reports.py` instead always
    treats a present comma as the decimal point, so the US-style half of the
    original claim fails there (see the counterexample). -/
theorem pending_parse_float_last_separator (intParts : List PyStr) (frac : PyStr)
    (hlen : 2 ≤ intParts.length)
    (hint : ∀ p ∈ intParts, p ≠ [] ∧ p.all Char.isDigit = true)
    (hfne : frac ≠ []) (hfd : frac.all Char.isDigit = true) :
    ScrapePendingOrders._parse_float (sepJoin ',' intParts ++ '.' :: frac) =
      (digitsVal intParts.flatten : ℚ) + (digitsVal frac : ℚ) / 10 ^ frac.length ∧
    ScrapePendingOrders._parse_float (sepJoin '.' intParts ++ ',' :: frac) =
      (digitsVal intParts.flatten : ℚ) + (digitsVal frac : ℚ) / 10 ^ frac.length := by
  have hdig : ∀ p ∈ intParts, p.all Char.isDigit = true := fun p hp => (hint p hp).2
  have hflatd : intParts.flatten.all Char.isDigit = true := flatten_all_digits hdig
  have hfnodot : '.' ∉ frac := not_mem_of_all_digits hfd (by decide)
  have hfnocomma : ',' ∉ frac := not_mem_of_all_digits hfd (by decide)
  have hpnodot : ∀ p ∈ intParts, '.' ∉ p :=
    fun p hp => not_mem_of_all_digits (hdig p hp) (by decide)
  have hpnocomma : ∀ p ∈ intParts, ',' ∉ p :=
    fun p hp => not_mem_of_all_digits (hdig p hp) (by decide)
  constructor
  · set A := sepJoin ',' intParts with hA
    have hchars : ∀ c ∈ A ++ '.' :: frac, c.isDigit = true ∨ c = '.' ∨ c = ',' := by
      intro c hc
      rcases mem_sepJoin_append_cons hc with h1 | h1 | ⟨p, hp, hcp⟩ | h1
      · exact Or.inr (Or.inr h1)
      · exact Or.inr (Or.inl h1)
      · exact Or.inl (List.all_eq_true.mp (hdig p hp) c hcp)
      · exact Or.inl (List.all_eq_true.mp hfd c h1)
    have hstrip : pyStrip (A ++ '.' :: frac) = A ++ '.' :: frac :=
      pyStrip_digit_sep_string hchars
    have hsne : (A ++ '.' :: frac) ≠ [] := by
      intro h
      have := congrArg List.length h
      simp only [List.length_append, List.length_cons, List.length_nil] at this
      omega
    have hdots : '.' ∈ A ++ '.' :: frac :=
      List.mem_append_right _ (List.mem_cons_self _ _)
    have hcommas : ',' ∈ A ++ '.' :: frac :=
      List.mem_append_left _ (sep_mem_sepJoin hlen)
    have hnomemtail : ',' ∉ '.' :: frac := by
      intro h
      rcases List.mem_cons.mp h with h1 | h1
      · exact absurd h1 (by decide)
      · exact hfnocomma h1
    have hr1 : pyRfind '.' (A ++ '.' :: frac) = (A.length : ℤ) := by
      rw [pyRfind_append, if_pos (List.mem_cons_self _ _)]
      have h0 : pyRfind '.' ('.' :: frac) = 0 := by
        simp [pyRfind, pyRfind_not_mem hfnodot]
      rw [h0, add_zero]
    have hr2 : pyRfind ',' (A ++ '.' :: frac) = pyRfind ',' A := by
      rw [pyRfind_append, if_neg hnomemtail]
    have hcmp : ¬(pyRfind ',' (A ++ '.' :: frac) > pyRfind '.' (A ++ '.' :: frac)) := by
      have hlt := pyRfind_lt_length ',' A
      rw [hr1, hr2]
      omega
    have hremove : removeChar ',' (A ++ '.' :: frac) = intParts.flatten ++ '.' :: frac := by
      rw [removeChar_append, hA, removeChar_sepJoin hpnocomma,
        removeChar_cons_ne (by decide), removeChar_eq_self hfnocomma]
    unfold ScrapePendingOrders._parse_float
    rw [hstrip, if_neg hsne]
    dsimp only
    rw [if_pos ⟨hdots, hcommas⟩, if_neg hcmp, hremove,
      pyFloat_decimal hflatd hfd (Or.inr hfne)]
    rfl
  · set B := sepJoin '.' intParts with hB
    have hchars : ∀ c ∈ B ++ ',' :: frac, c.isDigit = true ∨ c = '.' ∨ c = ',' := by
      intro c hc
      rcases mem_sepJoin_append_cons hc with h1 | h1 | ⟨p, hp, hcp⟩ | h1
      · exact Or.inr (Or.inl h1)
      · exact Or.inr (Or.inr h1)
      · exact Or.inl (List.all_eq_true.mp (hdig p hp) c hcp)
      · exact Or.inl (List.all_eq_true.mp hfd c h1)
    have hstrip : pyStrip (B ++ ',' :: frac) = B ++ ',' :: frac :=
      pyStrip_digit_sep_string hchars
    have hsne : (B ++ ',' :: frac) ≠ [] := by
      intro h
      have := congrArg List.length h
      simp only [List.length_append, List.length_cons, List.length_nil] at this
      omega
    have hdots : '.' ∈ B ++ ',' :: frac :=
      List.mem_append_left _ (sep_mem_sepJoin hlen)
    have hcommas : ',' ∈ B ++ ',' :: frac :=
      List.mem_append_right _ (List.mem_cons_self _ _)
    have hnodottail : '.' ∉ ',' :: frac := by
      intro h
      rcases List.mem_cons.mp h with h1 | h1
      · exact absurd h1 (by decide)
      · exact hfnodot h1
    have hr1 : pyRfind ',' (B ++ ',' :: frac) = (B.length : ℤ) := by
      rw [pyRfind_append, if_pos (List.mem_cons_self _ _)]
      have h0 : pyRfind ',' (',' :: frac) = 0 := by
        simp [pyRfind, pyRfind_not_mem hfnocomma]
      rw [h0, add_zero]
    have hr2 : pyRfind '.' (B ++ ',' :: frac) = pyRfind '.' B := by
      rw [pyRfind_append, if_neg hnodottail]
    have hcmp : pyRfind ',' (B ++ ',' :: frac) > pyRfind '.' (B ++ ',' :: frac) := by
      have hlt := pyRfind_lt_length '.' B
      rw [hr1, hr2]
      omega
    have hremove : removeChar '.' (B ++ ',' :: frac) = intParts.flatten ++ ',' :: frac := by
      rw [removeChar_append, hB, removeChar_sepJoin hpnodot,
        removeChar_cons_ne (by decide), removeChar_eq_self hfnodot]
    have hflatnocomma : ',' ∉ intParts.flatten := not_mem_of_all_digits hflatd (by decide)
    have hrepl : replaceChar ',' '.' (intParts.flatten ++ ',' :: frac) =
        intParts.flatten ++ '.' :: frac := by
      rw [replaceChar_append, replaceChar_cons_self, replaceChar_eq_self hflatnocomma,
        replaceChar_eq_self hfnocomma]
    unfold ScrapePendingOrders._parse_float
    rw [hstrip, if_neg hsne]
    dsimp only
    rw [if_pos ⟨hdots, hcommas⟩, if_pos hcmp, hremove, hrepl,
      pyFloat_decimal hflatd hfd (Or.inr hfne)]
    rfl

/-- C2 witness: `"1,234.56"` and `"1.234,56"` both parse to `1234.56` under
    the `scrape_pending_orders.py` parser. -/
theorem pending_parse_float_last_separator_witness :
    ScrapePendingOrders._parse_float "1,234.56".data = (123456 : ℚ) / 100 ∧
    ScrapePendingOrders._parse_float "1.234,56".data = (123456 : ℚ) / 100 := by
  obtain ⟨h1, h2⟩ := pending_parse_float_last_separator [['1'], ['2', '3', '4']]
    ['5', '6'] (by decide) (by decide) (by decide) (by decide)
  rw [show sepJoin ',' [['1'], ['2', '3', '4']] ++ '.' :: ['5', '6'] = "1,234.56".data
    from by decide] at h1
  rw [show sepJoin '.' [['1'], ['2', '3', '4']] ++ ',' :: ['5', '6'] = "1.234,56".data
    from by decide] at h2
  refine ⟨h1.trans ?_, h2.trans ?_⟩ <;> (simp [digitsVal]; norm_num)

/-- **C9** (amended): for digit-group strings containing dots and no commas,
    the `scrape_reports.py` parser strips *all* dots exactly when three
    characters follow the *last* dot (whatever the number of dots), and
    otherwise keeps the last dot as the decimal point, stripping the earlier
    ones; the `scrape_pending_orders.py` parser strips all dots exactly when
    there is more than one dot, and keeps a single dot as the decimal point
    regardless of how many digits follow it. -/
theorem dot_only_parse_semantics (parts : List PyStr) (hlen : 2 ≤ parts.length)
    (hp : ∀ p ∈ parts, p ≠ [] ∧ p.all Char.isDigit = true) :
    ScrapeReports._parse_float (sepJoin '.' parts) =
      (if (parts.getLastD []).length = 3 then (digitsVal parts.flatten : ℚ)
       else (digitsVal parts.dropLast.flatten : ℚ) +
         (digitsVal (parts.getLastD []) : ℚ) / 10 ^ (parts.getLastD []).length) ∧
    ScrapePendingOrders._parse_float (sepJoin '.' parts) =
      (if 2 < parts.length then (digitsVal parts.flatten : ℚ)
       else (digitsVal parts.dropLast.flatten : ℚ) +
         (digitsVal (parts.getLastD []) : ℚ) / 10 ^ (parts.getLastD []).length) := by
  have hdig : ∀ p ∈ parts, p.all Char.isDigit = true := fun p hp' => (hp p hp').2
  have hpne : ∀ p ∈ parts, p ≠ [] := fun p hp' => (hp p hp').1
  have hflatd : parts.flatten.all Char.isDigit = true := flatten_all_digits hdig
  have hpnodot : ∀ p ∈ parts, '.' ∉ p :=
    fun p hp' => not_mem_of_all_digits (hdig p hp') (by decide)
  have hne : parts ≠ [] := by
    intro h
    rw [h] at hlen
    simp at hlen
  obtain ⟨p0, rest0, hcons⟩ : ∃ p0 rest0, parts = p0 :: rest0 := by
    cases parts with
    | nil => exact absurd rfl hne
    | cons a t => exact ⟨a, t, rfl⟩
  have hflatne : parts.flatten ≠ [] :=
    flatten_ne_nil_of_head hcons (hpne p0 (by rw [hcons]; exact List.mem_cons_self _ _))
  have hchars : ∀ c ∈ sepJoin '.' parts, c.isDigit = true ∨ c = '.' ∨ c = ',' := by
    intro c hc
    rcases mem_sepJoin hc with h1 | ⟨p, hp', hcp⟩
    · exact Or.inr (Or.inl h1)
    · exact Or.inl (List.all_eq_true.mp (hdig p hp') c hcp)
  have hstrip : pyStrip (sepJoin '.' parts) = sepJoin '.' parts :=
    pyStrip_digit_sep_string hchars
  have hdotmem : '.' ∈ sepJoin '.' parts := sep_mem_sepJoin hlen
  have hsne : sepJoin '.' parts ≠ [] := by
    intro h
    rw [h] at hdotmem
    simp at hdotmem
  have hnocomma : ',' ∉ sepJoin '.' parts := by
    intro h
    rcases mem_sepJoin h with h1 | ⟨p, hp', hcp⟩
    · exact absurd h1 (by decide)
    · exact absurd (List.all_eq_true.mp (hdig p hp') _ hcp) (by decide)
  have hsplit : pySplit '.' (sepJoin '.' parts) = parts := pySplit_sepJoin hne hpnodot
  have hlastmem : parts.getLastD [] ∈ parts := getLastD_mem hne []
  have hlastne : parts.getLastD [] ≠ [] := hpne _ hlastmem
  have hlastd : (parts.getLastD []).all Char.isDigit = true := hdig _ hlastmem
  have hdropd : parts.dropLast.flatten.all Char.isDigit = true :=
    flatten_all_digits (fun p hp' => hdig p ((List.dropLast_sublist _).subset hp'))
  have hcount : (sepJoin '.' parts).count '.' = parts.length - 1 := count_sepJoin hpnodot
  constructor
  · unfold ScrapeReports._parse_float
    rw [hstrip]
    dsimp only
    rw [if_neg hsne, if_neg hnocomma, if_pos hdotmem, hsplit]
    by_cases h3 : (parts.getLastD []).length = 3
    · rw [if_pos ⟨h3, by omega⟩, pyFloat_digits hflatne hflatd, if_pos h3]
      rfl
    · rw [if_neg (fun hand => h3 hand.1),
        pyFloat_decimal hdropd hlastd (Or.inr hlastne), if_neg h3]
      rfl
  · unfold ScrapePendingOrders._parse_float
    rw [hstrip, if_neg hsne]
    dsimp only
    rw [if_neg (fun hand => hnocomma hand.2), if_neg hnocomma, hcount]
    by_cases h2 : 2 < parts.length
    · rw [if_pos (by omega), removeChar_sepJoin hpnodot,
        pyFloat_digits hflatne hflatd, if_pos h2]
      rfl
    · have hlen2 : parts.length = 2 := by omega
      rw [if_neg (by omega), if_neg h2]
      obtain ⟨p, q, hpq⟩ : ∃ p q, parts = [p, q] := by
        cases parts with
        | nil => simp at hlen2
        | cons a t =>
          cases t with
          | nil => simp at hlen2
          | cons b u =>
            cases u with
            | nil => exact ⟨a, b, rfl⟩
            | cons c v => simp at hlen2
      subst hpq
      have hje : sepJoin '.' [p, q] = p ++ '.' :: q := by simp [sepJoin]
      rw [hje, pyFloat_decimal (hdig p (by simp)) (hdig q (by simp))
        (Or.inr (hpne q (by simp)))]
      simp [List.getLastD, List.dropLast]

/-- C9 witness: `"1.300"` parses to `1300` in `scrape_reports.py` (three
    digits after the dot → thousands grouping) but to `1.3` in
    `scrape_pending_orders.py` (single dot → decimal point). -/
theorem dot_only_parse_semantics_witness :
    ScrapeReports._parse_float "1.300".data = (1300 : ℚ) ∧
    ScrapePendingOrders._parse_float "1.300".data = (13 : ℚ) / 10 := by
  obtain ⟨h1, h2⟩ := dot_only_parse_semantics [['1'], ['3', '0', '0']]
    (by decide) (by decide)
  rw [show sepJoin '.' [['1'], ['3', '0', '0']] = "1.300".data from by decide] at h1 h2
  constructor
  · exact h1.trans (by simp [digitsVal, List.getLastD, List.dropLast]; try norm_num)
  · exact h2.trans (by simp [digitsVal, List.getLastD, List.dropLast]; try norm_num)
